import Mathlib

/-!
Shallow embedding of the messagely user/auth layer:
`src/models/user.js` (the `User` store) and `src/routes/auth.js`
(the login/registration flow), together with models of the external
capabilities they consume (bcrypt, jsonwebtoken, the relational store).

Timestamps (`current_timestamp`) are modelled as a `Nat` parameter `now`
threaded into each state-changing operation.  Database tables are lists of
records; the SQL text of each query in `user.js` is translated to list
operations with the usual SQL semantics (`WHERE` = filter, inner `JOIN` =
nested loop over matching rows, `rows[0]` = `head?`).
-/

namespace Messagely

/-- Error value thrown by the application (`expressError.js`): a
human-readable message plus an HTTP status hint.  The spec's error kinds
classify these values: `ValidationError` = ⟨"All fields are required", 400⟩,
`ConflictError` = ⟨"Username u already exists", 400⟩, `AuthError` =
⟨"Invalid username/password", 400⟩, `NotFoundError` = status 404. -/
structure ExpressError where
  message : String
  status : Nat
deriving DecidableEq, Repr

/-- Modelled from the spec: `config.js` is not under `src/`; per §9 the
bcrypt work factor is process-wide immutable configuration. -/
def BCRYPT_WORK_FACTOR : Nat := 12

/-- Modelled from the spec: `config.js` is not under `src/`; per §6 the
token-signing capability is keyed by a shared secret. -/
def SECRET_KEY : String := "secret"

/-- Model of the external Credential Hasher (`bcrypt.hash`): a one-way hash
tagged with the work factor.  The hash is a pure function of the work factor
and the password. -/
def bcryptHash (workFactor : Nat) (pwd : String) : String :=
  "bcrypt$" ++ toString workFactor ++ "$" ++ pwd

/-- Model of the external Credential Hasher (`bcrypt.compare`): checks that
the stored hash is the hash of the supplied password (the store always
hashes with `BCRYPT_WORK_FACTOR`). -/
def bcryptCompare (pwd storedHash : String) : Bool :=
  storedHash == bcryptHash BCRYPT_WORK_FACTOR pwd

/-- Model of a signed token (`jwt.sign({ username }, SECRET_KEY)`): the
payload carries the username claim; the signature is keyed by the secret. -/
structure Token where
  username : String
  secret : String
deriving DecidableEq, Repr

/-- Model of the external Token Issuer (`jwt.sign`). -/
def jwtSign (username secret : String) : Token :=
  ⟨username, secret⟩

/-- A row of the `users` table (§6: users(username PK, password,
first_name, last_name, phone, join_at, last_login_at)).  `password` stores
the bcrypt hash. -/
structure UserRec where
  username : String
  password : String
  first_name : String
  last_name : String
  phone : String
  join_at : Nat
  last_login_at : Nat
deriving DecidableEq, Repr

/-- A row of the `messages` table (§6: messages(id PK, from_username FK,
to_username FK, body, sent_at, read_at nullable)). -/
structure MessageRec where
  id : Nat
  from_username : String
  to_username : String
  body : String
  sent_at : Nat
  read_at : Option Nat
deriving DecidableEq, Repr

/-- The persistent relational store: the two tables of §6. -/
structure DB where
  users : List UserRec
  messages : List MessageRec
deriving DecidableEq, Repr

/-- Result object produced by the storage client for a single query:
the returned rows, plus an optional SQL state code reporting a constraint
violation. -/
structure QueryResult (α : Type) where
  rows : List α
  code : Option String
deriving DecidableEq, Repr

/-- Shape returned by register's INSERT
(`RETURNING username, password, first_name, last_name, phone`). -/
structure InsertedUser where
  username : String
  password : String
  first_name : String
  last_name : String
  phone : String
deriving DecidableEq, Repr

/-- Modelled from the spec: `db.js` is not under `src/`.  Per §5 the store
enforces the uniqueness constraint on `username` and per §9 the source
detects a duplicate key through the SQL state code `"23505"` carried on the
query result; so the INSERT of `User.register` is modelled as leaving the
table unchanged and reporting code `"23505"` on a duplicate username, and
otherwise appending the new row (with `join_at` and `last_login_at` set to
the current time) and returning it. -/
def dbInsertUser (now : Nat) (username hashedPwd first_name last_name phone : String)
    (db : DB) : DB × QueryResult InsertedUser :=
  if db.users.any (fun u => u.username == username) then
    (db, ⟨[], some "23505"⟩)
  else
    ({ db with users :=
        db.users ++ [⟨username, hashedPwd, first_name, last_name, phone, now, now⟩] },
     ⟨[⟨username, hashedPwd, first_name, last_name, phone⟩], none⟩)

/-- The five fields of a registration request. -/
structure RegisterFields where
  username : String
  password : String
  first_name : String
  last_name : String
  phone : String
deriving DecidableEq, Repr

/-- `User.register` (`src/models/user.js`): rejects any falsy (empty) field
with a 400, hashes the password, inserts the row, and converts the
duplicate-key code into a 400 conflict error; otherwise returns the
inserted row (`result.rows[0]`).  The first component is the store after
the call. -/
def register (now : Nat) (f : RegisterFields) (db : DB) :
    DB × Except ExpressError (Option InsertedUser) :=
  if f.username == "" || f.password == "" || f.first_name == "" ||
      f.last_name == "" || f.phone == "" then
    (db, .error ⟨"All fields are required", 400⟩)
  else
    let hashedPwd := bcryptHash BCRYPT_WORK_FACTOR f.password
    let res := dbInsertUser now f.username hashedPwd f.first_name f.last_name f.phone db
    if res.2.code == some "23505" then
      (res.1, .error ⟨"Username " ++ f.username ++ " already exists", 400⟩)
    else
      (res.1, .ok res.2.rows.head?)

/-- `SELECT ... FROM users WHERE username = $1` followed by `rows[0]`. -/
def findUser (db : DB) (username : String) : Option UserRec :=
  (db.users.filter (fun u => u.username == username)).head?

/-- `User.authenticate` (`src/models/user.js`): selects the stored hash for
the username; throws a 400 if no such user; otherwise returns the result of
the bcrypt comparison. -/
def authenticate (username password : String) (db : DB) : Except ExpressError Bool :=
  match findUser db username with
  | none => .error ⟨"Invalid username/password", 400⟩
  | some u => .ok (bcryptCompare password u.password)

/-- `User.updateLoginTimestamp` (`src/models/user.js`): `UPDATE users SET
last_login_at = current_timestamp WHERE username = $1 RETURNING username,
last_login_at`; throws a 404 if no row was returned.  The first component
is the store after the call. -/
def updateLoginTimestamp (now : Nat) (username : String) (db : DB) :
    DB × Except ExpressError (String × Nat) :=
  let users1 := db.users.map (fun u =>
    if u.username == username then { u with last_login_at := now } else u)
  let returning := (users1.filter (fun u => u.username == username)).map
    (fun u => (u.username, u.last_login_at))
  match returning.head? with
  | none => ({ db with users := users1 }, .error ⟨"No such user: " ++ username, 404⟩)
  | some r => ({ db with users := users1 }, .ok r)

/-- The public profile shape (username, first_name, last_name, phone). -/
structure PublicUser where
  username : String
  first_name : String
  last_name : String
  phone : String
deriving DecidableEq, Repr

/-- Projection of a user row to its public profile. -/
def publicUser (u : UserRec) : PublicUser :=
  ⟨u.username, u.first_name, u.last_name, u.phone⟩

/-- `User.all` (`src/models/user.js`): selects every user's public profile
in storage order; throws a 404 if the result set is empty. -/
def all (db : DB) : Except ExpressError (List PublicUser) :=
  let rows := db.users.map publicUser
  match rows.head? with
  | none => .error ⟨"No users found", 404⟩
  | some _ => .ok rows

/-- Shape returned by `User.get`. -/
structure UserProfile where
  username : String
  first_name : String
  last_name : String
  phone : String
  join_at : Nat
  last_login_at : Nat
deriving DecidableEq, Repr

/-- `User.get` (`src/models/user.js`): full profile by username, 404 if
absent. -/
def get (username : String) (db : DB) : Except ExpressError UserProfile :=
  match findUser db username with
  | none => .error ⟨"No such user: " ++ username, 404⟩
  | some u => .ok ⟨u.username, u.first_name, u.last_name, u.phone, u.join_at, u.last_login_at⟩

/-- A row of `User.messagesFrom`: the message plus the recipient's public
profile. -/
structure MessageFromRow where
  id : Nat
  to_user : PublicUser
  body : String
  sent_at : Nat
  read_at : Option Nat
deriving DecidableEq, Repr

/-- A row of `User.messagesTo`: the message plus the sender's public
profile. -/
structure MessageToRow where
  id : Nat
  from_user : PublicUser
  body : String
  sent_at : Nat
  read_at : Option Nat
deriving DecidableEq, Repr

/-- `User.messagesFrom` (`src/models/user.js`): `SELECT ... FROM messages m
JOIN users u ON m.to_username = u.username WHERE m.from_username = $1`,
404 if the result set is empty, then each row shaped into
`{id, to_user, body, sent_at, read_at}` (the `to_user.username` copied from
the message's `to_username` column). -/
def messagesFrom (username : String) (db : DB) : Except ExpressError (List MessageFromRow) :=
  let rows := (db.messages.filter (fun m => m.from_username == username)).flatMap
    (fun m => (db.users.filter (fun u => u.username == m.to_username)).map
      (fun u => (m, u)))
  match rows.head? with
  | none => .error ⟨"No messages found from: " ++ username, 404⟩
  | some _ => .ok (rows.map (fun r =>
      ⟨r.1.id, ⟨r.1.to_username, r.2.first_name, r.2.last_name, r.2.phone⟩,
       r.1.body, r.1.sent_at, r.1.read_at⟩))

/-- `User.messagesTo` (`src/models/user.js`): symmetric to `messagesFrom`,
joining on the sender. -/
def messagesTo (username : String) (db : DB) : Except ExpressError (List MessageToRow) :=
  let rows := (db.messages.filter (fun m => m.to_username == username)).flatMap
    (fun m => (db.users.filter (fun u => u.username == m.from_username)).map
      (fun u => (m, u)))
  match rows.head? with
  | none => .error ⟨"No messages found to: " ++ username, 404⟩
  | some _ => .ok (rows.map (fun r =>
      ⟨r.1.id, ⟨r.1.from_username, r.2.first_name, r.2.last_name, r.2.phone⟩,
       r.1.body, r.1.sent_at, r.1.read_at⟩))

/-- Observable calls made by the Auth Flow route handlers, in program
order. -/
inductive AuthEvent where
  | registerCall
  | authenticateCall
  | updateLoginTimestampCall
  | jwtSignCall
deriving DecidableEq, Repr

deriving instance DecidableEq for Except

/-- Result of a route handler run: the store afterwards, the response
(token) or propagated error, and the trace of calls it made. -/
structure FlowResult where
  db : DB
  outcome : Except ExpressError Token
  trace : List AuthEvent
deriving DecidableEq, Repr

/-- `POST /login` (`src/routes/auth.js`): authenticate; on `true` update
the login timestamp and respond with a signed token carrying the username
claim; on `false` throw a 400; any thrown error is passed to `next`
unchanged. -/
def loginFlow (now : Nat) (username password : String) (db : DB) : FlowResult :=
  match authenticate username password db with
  | .error e => ⟨db, .error e, [.authenticateCall]⟩
  | .ok true =>
    let res := updateLoginTimestamp now username db
    match res.2 with
    | .error e => ⟨res.1, .error e, [.authenticateCall, .updateLoginTimestampCall]⟩
    | .ok _ => ⟨res.1, .ok (jwtSign username SECRET_KEY),
        [.authenticateCall, .updateLoginTimestampCall, .jwtSignCall]⟩
  | .ok false => ⟨db, .error ⟨"Invalid username/password", 400⟩, [.authenticateCall]⟩

/-- `POST /register` (`src/routes/auth.js`): call `User.register`, sign the
JWT, then call `User.updateLoginTimestamp`, then respond with the token;
any thrown error is passed to `next` unchanged. -/
def registerFlow (now : Nat) (f : RegisterFields) (db : DB) : FlowResult :=
  let res := register now f db
  match res.2 with
  | .error e => ⟨res.1, .error e, [.registerCall]⟩
  | .ok _ =>
    let token := jwtSign f.username SECRET_KEY
    let res2 := updateLoginTimestamp now f.username res.1
    match res2.2 with
    | .error e => ⟨res2.1, .error e,
        [.registerCall, .jwtSignCall, .updateLoginTimestampCall]⟩
    | .ok _ => ⟨res2.1, .ok token,
        [.registerCall, .jwtSignCall, .updateLoginTimestampCall]⟩

/-- Sample stored user for concrete evaluations. -/
def aliceRec : UserRec :=
  ⟨"alice", bcryptHash BCRYPT_WORK_FACTOR "pw", "Alice", "Liddell", "555-0000", 0, 0⟩

/-- Sample second stored user. -/
def bobRec : UserRec :=
  ⟨"bob", bcryptHash BCRYPT_WORK_FACTOR "pw2", "Bob", "Builder", "555-1111", 0, 0⟩

/-- Sample message from alice to bob. -/
def msg1 : MessageRec := ⟨1, "alice", "bob", "hi", 5, none⟩

/-- Sample message from bob to alice. -/
def msg2 : MessageRec := ⟨2, "bob", "alice", "yo", 6, some 7⟩

/-- Empty store. -/
def db0 : DB := ⟨[], []⟩

/-- Sample store holding one user and no messages. -/
def db1 : DB := ⟨[aliceRec], []⟩

/-- Sample store with two users and two messages. -/
def db2 : DB := ⟨[aliceRec, bobRec], [msg1, msg2]⟩

/-- Sample registration payload. -/
def fAlice : RegisterFields := ⟨"alice", "pw", "Alice", "Liddell", "555-0000"⟩

/-- C5: registering with any required field missing or empty fails with the
ValidationError ⟨"All fields are required", 400⟩ and performs no storage
write: the store component of the result is the unchanged input store. -/
theorem register_empty_field_validation (now : Nat) (f : RegisterFields) (db : DB)
    (h : f.username = "" ∨ f.password = "" ∨ f.first_name = "" ∨
      f.last_name = "" ∨ f.phone = "") :
    register now f db = (db, .error ⟨"All fields are required", 400⟩) := by
  unfold register
  rcases h with h | h | h | h | h <;> simp [h]

/-- C5 witness: a concrete registration with an empty username fails with
the validation error and leaves the empty store unchanged. -/
theorem register_empty_field_validation_witness :
    register 0 ⟨"", "pw", "A", "L", "5"⟩ db0 =
      (db0, .error ⟨"All fields are required", 400⟩) :=
  register_empty_field_validation 0 ⟨"", "pw", "A", "L", "5"⟩ db0 (Or.inl rfl)

/-- C1: with all five fields non-empty and the username fresh, the first
register succeeds (returning the inserted row) and a second register of the
same username fails with the ConflictError
⟨"Username u already exists", 400⟩. -/
theorem register_twice_conflict (now1 now2 : Nat) (f : RegisterFields) (db : DB)
    (hu : f.username ≠ "") (hp : f.password ≠ "") (hf : f.first_name ≠ "")
    (hl : f.last_name ≠ "") (hph : f.phone ≠ "")
    (hfresh : ∀ u ∈ db.users, u.username ≠ f.username) :
    (register now1 f db).2 =
      .ok (some ⟨f.username, bcryptHash BCRYPT_WORK_FACTOR f.password,
        f.first_name, f.last_name, f.phone⟩) ∧
    (register now2 f (register now1 f db).1).2 =
      .error ⟨"Username " ++ f.username ++ " already exists", 400⟩ := by
  have hAny : db.users.any (fun u => u.username == f.username) = false := by
    rw [List.any_eq_false]
    intro u hu'
    simpa using hfresh u hu'
  have h1 : register now1 f db =
      ({ db with users := db.users ++
          [⟨f.username, bcryptHash BCRYPT_WORK_FACTOR f.password,
            f.first_name, f.last_name, f.phone, now1, now1⟩] },
       .ok (some ⟨f.username, bcryptHash BCRYPT_WORK_FACTOR f.password,
          f.first_name, f.last_name, f.phone⟩)) := by
    unfold register dbInsertUser
    simp [hu, hp, hf, hl, hph, hAny]
  refine ⟨by rw [h1], ?_⟩
  rw [h1]
  unfold register dbInsertUser
  simp [hu, hp, hf, hl, hph]

/-- C1 witness: registering alice twice into the empty store — the first
call succeeds, the second fails with the conflict error. -/
theorem register_twice_conflict_witness :
    (register 0 fAlice db0).2 =
      .ok (some ⟨"alice", bcryptHash BCRYPT_WORK_FACTOR "pw",
        "Alice", "Liddell", "555-0000"⟩) ∧
    (register 1 fAlice (register 0 fAlice db0).1).2 =
      .error ⟨"Username " ++ "alice" ++ " already exists", 400⟩ :=
  register_twice_conflict 0 1 fAlice db0 (by decide) (by decide) (by decide)
    (by decide) (by decide) (by decide)

/-- C3: authenticate fails with the AuthError
⟨"Invalid username/password", 400⟩ when no user with the username exists;
when the user exists it never throws and returns the boolean that is true
exactly when the supplied password hashes to the stored hash. -/
theorem authenticate_spec (username password : String) (db : DB) :
    (findUser db username = none →
      authenticate username password db = .error ⟨"Invalid username/password", 400⟩) ∧
    (∀ u, findUser db username = some u →
      ∃ b, authenticate username password db = .ok b ∧
        (b = true ↔ bcryptHash BCRYPT_WORK_FACTOR password = u.password)) := by
  constructor
  · intro h
    simp [authenticate, h]
  · intro u h
    refine ⟨bcryptCompare password u.password, by simp [authenticate, h], ?_⟩
    simp [bcryptCompare]
    exact eq_comm

/-- C3 witness: against the one-user store, an unknown username fails with
the auth error and the known username returns the hash-match boolean. -/
theorem authenticate_spec_witness :
    authenticate "ghost" "x" db1 = .error ⟨"Invalid username/password", 400⟩ ∧
    ∃ b, authenticate "alice" "pw" db1 = .ok b ∧
      (b = true ↔ bcryptHash BCRYPT_WORK_FACTOR "pw" = aliceRec.password) :=
  ⟨(authenticate_spec "ghost" "x" db1).1 (by decide),
   (authenticate_spec "alice" "pw" db1).2 aliceRec (by decide)⟩

/-- C10: the login flow yields the identical failure — message
"Invalid username/password" with status 400 — both when the username does
not exist and when the username exists but the password is wrong, so a
caller cannot tell from the error which case occurred. -/
theorem login_enumeration_resistance (now1 now2 : Nat) (u1 p1 u2 p2 : String)
    (dbA dbB : DB) (h1 : findUser dbA u1 = none)
    (h2 : ∃ r, findUser dbB u2 = some r ∧ bcryptCompare p2 r.password = false) :
    (loginFlow now1 u1 p1 dbA).outcome = .error ⟨"Invalid username/password", 400⟩ ∧
    (loginFlow now2 u2 p2 dbB).outcome = .error ⟨"Invalid username/password", 400⟩ := by
  obtain ⟨r, hr, hc⟩ := h2
  constructor
  · simp [loginFlow, authenticate, h1]
  · simp [loginFlow, authenticate, hr, hc]

/-- C10 witness: against the one-user store, an unknown username and a
wrong password for the known username produce the same error. -/
theorem login_enumeration_resistance_witness :
    (loginFlow 3 "ghost" "pw" db1).outcome =
      .error ⟨"Invalid username/password", 400⟩ ∧
    (loginFlow 3 "alice" "bad" db1).outcome =
      .error ⟨"Invalid username/password", 400⟩ :=
  login_enumeration_resistance 3 3 "ghost" "pw" "alice" "bad" db1 db1 (by decide)
    ⟨aliceRec, by decide, by decide⟩

/-- C2 counterexample: on a concrete valid registration, the register
flow's call trace signs the token before calling updateLoginTimestamp, not
after it as the claim states. -/
theorem registerFlow_order_counterexample :
    (registerFlow 0 fAlice db0).trace =
      [.registerCall, .jwtSignCall, .updateLoginTimestampCall] ∧
    (registerFlow 0 fAlice db0).trace ≠
      [.registerCall, .updateLoginTimestampCall, .jwtSignCall] := by
  decide

/-- C2 amended: the register flow calls the store's register first; on
success it then signs the token and only then calls updateLoginTimestamp;
any failure from the store's register propagates to the caller unchanged
(the same error, with no further calls made). -/
theorem registerFlow_order (now : Nat) (f : RegisterFields) (db : DB) :
    (∃ e, (register now f db).2 = .error e ∧
      registerFlow now f db = ⟨(register now f db).1, .error e, [.registerCall]⟩) ∨
    ((∃ r, (register now f db).2 = .ok r) ∧
      (registerFlow now f db).trace =
        [.registerCall, .jwtSignCall, .updateLoginTimestampCall]) := by
  unfold registerFlow
  cases h : (register now f db).2 with
  | error e => exact Or.inl ⟨e, rfl, by simp [h]⟩
  | ok r =>
    refine Or.inr ⟨⟨r, rfl⟩, ?_⟩
    simp only [h]
    cases h2 : (updateLoginTimestamp now f.username (register now f db).1).2 <;> simp

/-- A hit of the username lookup is a stored user carrying that
username. -/
theorem mem_of_findUser_eq_some {db : DB} {username : String} {u : UserRec}
    (h : findUser db username = some u) : u ∈ db.users ∧ u.username = username := by
  unfold findUser at h
  have hm : u ∈ db.users.filter (fun x => x.username == username) :=
    List.mem_of_mem_head? (Option.mem_def.mpr h)
  have hmm := List.mem_filter.1 hm
  exact ⟨hmm.1, by simpa using hmm.2⟩

/-- `updateLoginTimestamp` always leaves the store with the target user's
`last_login_at` mapped to `now` and everything else as-is (the UPDATE runs
whether or not a row matches). -/
theorem updateLoginTimestamp_state (now : Nat) (username : String) (db : DB) :
    (updateLoginTimestamp now username db).1 =
      { db with users := db.users.map (fun u =>
          if u.username == username then { u with last_login_at := now } else u) } := by
  simp only [updateLoginTimestamp]
  split <;> rfl

/-- When the user exists, `updateLoginTimestamp` succeeds. -/
theorem updateLoginTimestamp_ok_of_mem (now : Nat) (username : String) (db : DB)
    (h : ∃ u ∈ db.users, u.username = username) :
    ∃ r, (updateLoginTimestamp now username db).2 = .ok r := by
  obtain ⟨u, hu, hun⟩ := h
  simp only [updateLoginTimestamp]
  split
  · rename_i heq
    exfalso
    rw [List.head?_eq_none_iff, List.map_eq_nil_iff, List.filter_eq_nil_iff] at heq
    have hfu := List.mem_map_of_mem
      (fun x => if x.username == username then { x with last_login_at := now } else x) hu
    exact heq _ hfu (by simp [hun])
  · rename_i r heq
    exact ⟨r, rfl⟩

/-- C4: when authenticate returns true, the login flow calls
updateLoginTimestamp and then issues the signed token whose payload carries
the username claim; when authenticate returns false, the flow fails with
the AuthError ⟨"Invalid username/password", 400⟩, makes no further calls
and issues no token. -/
theorem loginFlow_spec (now : Nat) (username password : String) (db : DB) :
    (authenticate username password db = .ok true →
      (loginFlow now username password db).outcome = .ok ⟨username, SECRET_KEY⟩ ∧
      (loginFlow now username password db).trace =
        [.authenticateCall, .updateLoginTimestampCall, .jwtSignCall]) ∧
    (authenticate username password db = .ok false →
      loginFlow now username password db =
        ⟨db, .error ⟨"Invalid username/password", 400⟩, [.authenticateCall]⟩) := by
  constructor
  · intro h
    have hex : ∃ u ∈ db.users, u.username = username := by
      unfold authenticate at h
      cases hf : findUser db username with
      | none => rw [hf] at h; exact absurd h (by simp)
      | some u =>
        obtain ⟨hm, hn⟩ := mem_of_findUser_eq_some hf
        exact ⟨u, hm, hn⟩
    obtain ⟨r, hr⟩ := updateLoginTimestamp_ok_of_mem now username db hex
    unfold loginFlow
    rw [h]
    simp [hr, jwtSign]
  · intro h
    unfold loginFlow
    rw [h]

/-- C4 witness: logging in with the correct password updates the timestamp
and yields the token carrying "alice"; with a wrong password it fails with
the auth error and no token. -/
theorem loginFlow_spec_witness :
    ((loginFlow 7 "alice" "pw" db1).outcome = .ok ⟨"alice", SECRET_KEY⟩ ∧
      (loginFlow 7 "alice" "pw" db1).trace =
        [.authenticateCall, .updateLoginTimestampCall, .jwtSignCall]) ∧
    loginFlow 7 "alice" "bad" db1 =
      ⟨db1, .error ⟨"Invalid username/password", 400⟩, [.authenticateCall]⟩ :=
  ⟨(loginFlow_spec 7 "alice" "pw" db1).1 (by decide),
   (loginFlow_spec 7 "alice" "bad" db1).2 (by decide)⟩

/-- C9: for an existing user, updateLoginTimestamp succeeds, leaves the
messages table untouched, and rewrites the users table record-for-record:
every record keeps its username, password hash, names, phone and join_at,
every record whose username differs from the target also keeps its
last_login_at, and the target's last_login_at becomes now. -/
theorem updateLoginTimestamp_frame (now : Nat) (username : String) (db : DB)
    (h : ∃ u ∈ db.users, u.username = username) :
    ∃ r, (updateLoginTimestamp now username db).2 = .ok r ∧
      (updateLoginTimestamp now username db).1.messages = db.messages ∧
      List.Forall₂ (fun (old new : UserRec) =>
        new.username = old.username ∧ new.password = old.password ∧
        new.first_name = old.first_name ∧ new.last_name = old.last_name ∧
        new.phone = old.phone ∧ new.join_at = old.join_at ∧
        (old.username ≠ username → new.last_login_at = old.last_login_at) ∧
        (old.username = username → new.last_login_at = now))
        db.users (updateLoginTimestamp now username db).1.users := by
  obtain ⟨r, hr⟩ := updateLoginTimestamp_ok_of_mem now username db h
  refine ⟨r, hr, by rw [updateLoginTimestamp_state], ?_⟩
  rw [updateLoginTimestamp_state]
  rw [show ({ db with users := db.users.map (fun u =>
      if u.username == username then { u with last_login_at := now } else u) } : DB).users =
      db.users.map (fun u =>
        if u.username == username then { u with last_login_at := now } else u) from rfl]
  rw [List.forall₂_map_right_iff, List.forall₂_same]
  intro x _
  by_cases hxu : x.username = username
  · simp [hxu]
  · have hb : (x.username == username) = false := by simp [hxu]
    simp [hb, hxu]

/-- C9 witness: updating alice's login timestamp in the two-user store
succeeds and satisfies the frame condition. -/
theorem updateLoginTimestamp_frame_witness :
    ∃ r, (updateLoginTimestamp 9 "alice" db2).2 = .ok r ∧
      (updateLoginTimestamp 9 "alice" db2).1.messages = db2.messages ∧
      List.Forall₂ (fun (old new : UserRec) =>
        new.username = old.username ∧ new.password = old.password ∧
        new.first_name = old.first_name ∧ new.last_name = old.last_name ∧
        new.phone = old.phone ∧ new.join_at = old.join_at ∧
        (old.username ≠ "alice" → new.last_login_at = old.last_login_at) ∧
        (old.username = "alice" → new.last_login_at = 9))
        db2.users (updateLoginTimestamp 9 "alice" db2).1.users :=
  updateLoginTimestamp_frame 9 "alice" db2 ⟨aliceRec, by decide, by decide⟩

/-- The join of the messages filtered on one endpoint with the users table
is empty exactly when no message has that endpoint equal to the target,
provided each message's other endpoint resolves to a stored user. -/
theorem join_eq_nil_iff (msgs : List MessageRec) (users : List UserRec)
    (sel other : MessageRec → String) (username : String)
    (href : ∀ m ∈ msgs, ∃ u ∈ users, u.username = other m) :
    ((msgs.filter (fun m => sel m == username)).flatMap
      (fun m => (users.filter (fun u => u.username == other m)).map
        (fun u => (m, u))) = []) ↔
      ∀ m ∈ msgs, sel m ≠ username := by
  rw [List.flatMap_eq_nil_iff]
  constructor
  · intro hh m hm hsel
    have hmf : m ∈ msgs.filter (fun m => sel m == username) :=
      List.mem_filter.2 ⟨hm, by simp [hsel]⟩
    have h2 := hh m hmf
    rw [List.map_eq_nil_iff, List.filter_eq_nil_iff] at h2
    obtain ⟨u, hu, hun⟩ := href m hm
    exact h2 u hu (by simp [hun])
  · intro hh m hm
    rw [List.mem_filter] at hm
    exact absurd (by simpa using hm.2) (hh m hm.1)

/-- `messagesFrom` produces its 404 exactly when the join yields no
rows. -/
theorem messagesFrom_error_iff (username : String) (db : DB) :
    (messagesFrom username db =
      .error ⟨"No messages found from: " ++ username, 404⟩) ↔
    (db.messages.filter (fun m => m.from_username == username)).flatMap
      (fun m => (db.users.filter (fun u => u.username == m.to_username)).map
        (fun u => (m, u))) = [] := by
  simp only [messagesFrom]
  split
  · rename_i heq
    rw [List.head?_eq_none_iff] at heq
    simp [heq]
  · rename_i r heq
    constructor
    · intro hcontra
      exact absurd hcontra (by simp)
    · intro hnil
      rw [hnil] at heq
      simp at heq

/-- `messagesTo` produces its 404 exactly when the join yields no rows. -/
theorem messagesTo_error_iff (username : String) (db : DB) :
    (messagesTo username db =
      .error ⟨"No messages found to: " ++ username, 404⟩) ↔
    (db.messages.filter (fun m => m.to_username == username)).flatMap
      (fun m => (db.users.filter (fun u => u.username == m.from_username)).map
        (fun u => (m, u))) = [] := by
  simp only [messagesTo]
  split
  · rename_i heq
    rw [List.head?_eq_none_iff] at heq
    simp [heq]
  · rename_i r heq
    constructor
    · intro hcontra
      exact absurd hcontra (by simp)
    · intro hnil
      rw [hnil] at heq
      simp at heq

/-- C6: each list operation fails with its NotFoundError (status 404)
exactly when its result set is empty — all() exactly when zero users
exist, and messagesFrom/messagesTo exactly when the user has no sent /
received messages (the hypotheses say each message endpoint resolves to a
stored user, the referential integrity of §3). -/
theorem empty_result_notFound (username : String) (db : DB)
    (hTo : ∀ m ∈ db.messages, ∃ u ∈ db.users, u.username = m.to_username)
    (hFrom : ∀ m ∈ db.messages, ∃ u ∈ db.users, u.username = m.from_username) :
    (all db = .error ⟨"No users found", 404⟩ ↔ db.users = []) ∧
    ((messagesFrom username db =
        .error ⟨"No messages found from: " ++ username, 404⟩) ↔
      ∀ m ∈ db.messages, m.from_username ≠ username) ∧
    ((messagesTo username db =
        .error ⟨"No messages found to: " ++ username, 404⟩) ↔
      ∀ m ∈ db.messages, m.to_username ≠ username) := by
  refine ⟨?_, ?_, ?_⟩
  · cases hdb : db.users with
    | nil => simp [all, hdb]
    | cons a t => simp [all, hdb]
  · rw [messagesFrom_error_iff]
    exact join_eq_nil_iff db.messages db.users (fun m => m.from_username)
      (fun m => m.to_username) username hTo
  · rw [messagesTo_error_iff]
    exact join_eq_nil_iff db.messages db.users (fun m => m.to_username)
      (fun m => m.from_username) username hFrom

/-- C6 witness: in the two-user store (where alice has one sent and one
received message) each of the three equivalences holds concretely. -/
theorem empty_result_notFound_witness :
    (all db2 = .error ⟨"No users found", 404⟩ ↔ db2.users = []) ∧
    ((messagesFrom "alice" db2 =
        .error ⟨"No messages found from: " ++ "alice", 404⟩) ↔
      ∀ m ∈ db2.messages, m.from_username ≠ "alice") ∧
    ((messagesTo "alice" db2 =
        .error ⟨"No messages found to: " ++ "alice", 404⟩) ↔
      ∀ m ∈ db2.messages, m.to_username ≠ "alice") :=
  empty_result_notFound "alice" db2 (by decide) (by decide)

/-- A valid registration with a fresh username makes a later get of that
username return the submitted names and phone with both timestamps set to
the registration time. -/
theorem register_then_get (now : Nat) (f : RegisterFields) (db : DB)
    (hu : f.username ≠ "") (hp : f.password ≠ "") (hf : f.first_name ≠ "")
    (hl : f.last_name ≠ "") (hph : f.phone ≠ "")
    (hfresh : ∀ u ∈ db.users, u.username ≠ f.username) :
    get f.username (register now f db).1 =
      .ok ⟨f.username, f.first_name, f.last_name, f.phone, now, now⟩ := by
  have hAny : db.users.any (fun u => u.username == f.username) = false := by
    rw [List.any_eq_false]
    intro u hu'
    simpa using hfresh u hu'
  have h1 : (register now f db).1 =
      { db with users := db.users ++
          [⟨f.username, bcryptHash BCRYPT_WORK_FACTOR f.password,
            f.first_name, f.last_name, f.phone, now, now⟩] } := by
    unfold register dbInsertUser
    simp [hu, hp, hf, hl, hph, hAny]
  rw [h1]
  unfold get findUser
  have hnil : db.users.filter (fun u => u.username == f.username) = [] := by
    rw [List.filter_eq_nil_iff]
    intro u hu'
    simpa using hfresh u hu'
  rw [show ({ db with users := db.users ++
      [⟨f.username, bcryptHash BCRYPT_WORK_FACTOR f.password,
        f.first_name, f.last_name, f.phone, now, now⟩] } : DB).users =
      db.users ++ [⟨f.username, bcryptHash BCRYPT_WORK_FACTOR f.password,
        f.first_name, f.last_name, f.phone, now, now⟩] from rfl]
  rw [List.filter_append, hnil]
  simp

/-- C8: after a valid registration (all five fields non-empty, fresh
username), get returns the submitted first_name, last_name and phone; and
the result of get is independent of the submitted plaintext password —
registering with any other non-empty password gives the identical get
result, so the password is no part of it. -/
theorem register_get_roundtrip (now : Nat) (f : RegisterFields) (db : DB)
    (hu : f.username ≠ "") (hp : f.password ≠ "") (hf : f.first_name ≠ "")
    (hl : f.last_name ≠ "") (hph : f.phone ≠ "")
    (hfresh : ∀ u ∈ db.users, u.username ≠ f.username) :
    get f.username (register now f db).1 =
      .ok ⟨f.username, f.first_name, f.last_name, f.phone, now, now⟩ ∧
    ∀ g : RegisterFields, g.username = f.username → g.first_name = f.first_name →
      g.last_name = f.last_name → g.phone = f.phone → g.password ≠ "" →
      get f.username (register now g db).1 =
        get f.username (register now f db).1 := by
  have base := register_then_get now f db hu hp hf hl hph hfresh
  refine ⟨base, fun g hgu hgf hgl hgph hgp => ?_⟩
  have base2 := register_then_get now g db (by rw [hgu]; exact hu) hgp
    (by rw [hgf]; exact hf) (by rw [hgl]; exact hl) (by rw [hgph]; exact hph)
    (by intro u hu'; rw [hgu]; exact hfresh u hu')
  rw [hgu, hgf, hgl, hgph] at base2
  rw [base2, base]

/-- C8 witness: registering alice into the empty store and reading her
back returns the submitted names and phone; registering with a different
password gives the identical get result. -/
theorem register_get_roundtrip_witness :
    get "alice" (register 4 fAlice db0).1 =
      .ok ⟨"alice", "Alice", "Liddell", "555-0000", 4, 4⟩ ∧
    get "alice" (register 4 ⟨"alice", "pw2", "Alice", "Liddell", "555-0000"⟩ db0).1 =
      get "alice" (register 4 fAlice db0).1 :=
  ⟨(register_get_roundtrip 4 fAlice db0 (by decide) (by decide) (by decide)
      (by decide) (by decide) (by decide)).1,
   (register_get_roundtrip 4 fAlice db0 (by decide) (by decide) (by decide)
      (by decide) (by decide) (by decide)).2
     ⟨"alice", "pw2", "Alice", "Liddell", "555-0000"⟩ rfl rfl rfl rfl (by decide)⟩

/-- With unique usernames, filtering the users table on an existing
username yields exactly the one record carrying it. -/
theorem filter_username_singleton (l : List UserRec) (n : String)
    (hN : (l.map UserRec.username).Nodup) (hex : ∃ u ∈ l, u.username = n) :
    ∃ u, u ∈ l ∧ u.username = n ∧ l.filter (fun x => x.username == n) = [u] := by
  induction l with
  | nil => simp at hex
  | cons a t ih =>
    rw [List.map_cons, List.nodup_cons] at hN
    by_cases ha : a.username = n
    · refine ⟨a, List.mem_cons_self a t, ha, ?_⟩
      rw [List.filter_cons_of_pos (by simp [ha])]
      have ht : t.filter (fun x => x.username == n) = [] := by
        rw [List.filter_eq_nil_iff]
        intro x hx
        simp only [beq_iff_eq]
        intro hxn
        exact hN.1 (by
          rw [ha, ← hxn]
          exact List.mem_map_of_mem UserRec.username hx)
      rw [ht]
    · obtain ⟨u, hu, hun⟩ := hex
      rcases List.mem_cons.1 hu with rfl | hu'
      · exact absurd hun ha
      · obtain ⟨v, hv, hvn, hfil⟩ := ih hN.2 ⟨u, hu', hun⟩
        exact ⟨v, List.mem_cons_of_mem a hv, hvn, by
          rw [List.filter_cons_of_neg (by simp [ha]), hfil]⟩

/-- Joining each message of a list with its (unique) counterpart user
gives rows in one-to-one, order-preserving correspondence with the
messages. -/
theorem join_forall2 (ms : List MessageRec) (users : List UserRec)
    (key : MessageRec → String)
    (hN : (users.map UserRec.username).Nodup)
    (hex : ∀ m ∈ ms, ∃ u ∈ users, u.username = key m) :
    List.Forall₂ (fun (p : MessageRec × UserRec) m =>
        p.1 = m ∧ p.2 ∈ users ∧ p.2.username = key m)
      (ms.flatMap (fun m => (users.filter (fun u => u.username == key m)).map
        (fun u => (m, u)))) ms := by
  induction ms with
  | nil => simp
  | cons m t ih =>
    rw [List.flatMap_cons]
    obtain ⟨u, hu, hun, hfil⟩ := filter_username_singleton users (key m) hN
      (hex m (List.mem_cons_self m t))
    rw [hfil]
    rw [List.map_cons, List.map_nil, List.singleton_append]
    exact List.Forall₂.cons ⟨rfl, hu, hun⟩
      (ih fun x hx => hex x (List.mem_cons_of_mem m hx))

/-- When the join yields at least one row, `messagesFrom` returns the
shaped rows of the join. -/
theorem messagesFrom_ok_of_ne_nil (username : String) (db : DB)
    (hne : (db.messages.filter (fun m => m.from_username == username)).flatMap
      (fun m => (db.users.filter (fun u => u.username == m.to_username)).map
        (fun u => (m, u))) ≠ []) :
    messagesFrom username db = .ok
      (((db.messages.filter (fun m => m.from_username == username)).flatMap
        (fun m => (db.users.filter (fun u => u.username == m.to_username)).map
          (fun u => (m, u)))).map (fun r =>
        ⟨r.1.id, ⟨r.1.to_username, r.2.first_name, r.2.last_name, r.2.phone⟩,
         r.1.body, r.1.sent_at, r.1.read_at⟩)) := by
  simp only [messagesFrom]
  split
  · rename_i heq
    rw [List.head?_eq_none_iff] at heq
    exact absurd heq hne
  · rfl

/-- When the join yields at least one row, `messagesTo` returns the shaped
rows of the join. -/
theorem messagesTo_ok_of_ne_nil (username : String) (db : DB)
    (hne : (db.messages.filter (fun m => m.to_username == username)).flatMap
      (fun m => (db.users.filter (fun u => u.username == m.from_username)).map
        (fun u => (m, u))) ≠ []) :
    messagesTo username db = .ok
      (((db.messages.filter (fun m => m.to_username == username)).flatMap
        (fun m => (db.users.filter (fun u => u.username == m.from_username)).map
          (fun u => (m, u)))).map (fun r =>
        ⟨r.1.id, ⟨r.1.from_username, r.2.first_name, r.2.last_name, r.2.phone⟩,
         r.1.body, r.1.sent_at, r.1.read_at⟩)) := by
  simp only [messagesTo]
  split
  · rename_i heq
    rw [List.head?_eq_none_iff] at heq
    exact absurd heq hne
  · rfl

/-- C7: for a user A with at least one sent message, messagesFrom A
returns, in one-to-one order-preserving correspondence, exactly the
messages whose from_username is A, each row carrying the id, body, sent_at
and read_at of its message and the recipient's public profile;
symmetrically for messagesTo B and received messages with the sender's
public profile.  The hypotheses are the data-model invariants of §3:
usernames are unique and every message endpoint references a stored
user. -/
theorem messages_exact (A B : String) (db : DB)
    (hN : (db.users.map UserRec.username).Nodup)
    (hTo : ∀ m ∈ db.messages, ∃ u ∈ db.users, u.username = m.to_username)
    (hFrom : ∀ m ∈ db.messages, ∃ u ∈ db.users, u.username = m.from_username)
    (hA : ∃ m ∈ db.messages, m.from_username = A)
    (hB : ∃ m ∈ db.messages, m.to_username = B) :
    (∃ l, messagesFrom A db = .ok l ∧
      List.Forall₂ (fun (r : MessageFromRow) (m : MessageRec) =>
        r.id = m.id ∧ r.body = m.body ∧ r.sent_at = m.sent_at ∧
        r.read_at = m.read_at ∧
        ∃ u ∈ db.users, u.username = m.to_username ∧ r.to_user = publicUser u)
        l (db.messages.filter (fun m => m.from_username == A))) ∧
    (∃ l, messagesTo B db = .ok l ∧
      List.Forall₂ (fun (r : MessageToRow) (m : MessageRec) =>
        r.id = m.id ∧ r.body = m.body ∧ r.sent_at = m.sent_at ∧
        r.read_at = m.read_at ∧
        ∃ u ∈ db.users, u.username = m.from_username ∧ r.from_user = publicUser u)
        l (db.messages.filter (fun m => m.to_username == B))) := by
  constructor
  · have hf2 := join_forall2 (db.messages.filter (fun m => m.from_username == A))
      db.users (fun m => m.to_username) hN
      (fun m hm => hTo m (List.mem_of_mem_filter hm))
    have hfilne : db.messages.filter (fun m => m.from_username == A) ≠ [] := by
      obtain ⟨m, hm, hmA⟩ := hA
      exact List.ne_nil_of_mem (List.mem_filter.2 ⟨hm, by simp [hmA]⟩)
    have hne : (db.messages.filter (fun m => m.from_username == A)).flatMap
        (fun m => (db.users.filter (fun u => u.username == m.to_username)).map
          (fun u => (m, u))) ≠ [] := by
      intro hnil
      have hlen := hf2.length_eq
      rw [hnil] at hlen
      exact hfilne (List.eq_nil_of_length_eq_zero hlen.symm)
    refine ⟨_, messagesFrom_ok_of_ne_nil A db hne, ?_⟩
    rw [List.forall₂_map_left_iff]
    refine hf2.imp fun a b hab => ?_
    obtain ⟨h1, h2, h3⟩ := hab
    subst h1
    exact ⟨rfl, rfl, rfl, rfl, a.2, h2, h3, by simp [publicUser, h3]⟩
  · have hf2 := join_forall2 (db.messages.filter (fun m => m.to_username == B))
      db.users (fun m => m.from_username) hN
      (fun m hm => hFrom m (List.mem_of_mem_filter hm))
    have hfilne : db.messages.filter (fun m => m.to_username == B) ≠ [] := by
      obtain ⟨m, hm, hmB⟩ := hB
      exact List.ne_nil_of_mem (List.mem_filter.2 ⟨hm, by simp [hmB]⟩)
    have hne : (db.messages.filter (fun m => m.to_username == B)).flatMap
        (fun m => (db.users.filter (fun u => u.username == m.from_username)).map
          (fun u => (m, u))) ≠ [] := by
      intro hnil
      have hlen := hf2.length_eq
      rw [hnil] at hlen
      exact hfilne (List.eq_nil_of_length_eq_zero hlen.symm)
    refine ⟨_, messagesTo_ok_of_ne_nil B db hne, ?_⟩
    rw [List.forall₂_map_left_iff]
    refine hf2.imp fun a b hab => ?_
    obtain ⟨h1, h2, h3⟩ := hab
    subst h1
    exact ⟨rfl, rfl, rfl, rfl, a.2, h2, h3, by simp [publicUser, h3]⟩

/-- C7 witness: in the two-user store, alice's sent messages are exactly
msg1 (carrying bob's profile) and her received messages exactly msg2. -/
theorem messages_exact_witness :
    (∃ l, messagesFrom "alice" db2 = .ok l ∧
      List.Forall₂ (fun (r : MessageFromRow) (m : MessageRec) =>
        r.id = m.id ∧ r.body = m.body ∧ r.sent_at = m.sent_at ∧
        r.read_at = m.read_at ∧
        ∃ u ∈ db2.users, u.username = m.to_username ∧ r.to_user = publicUser u)
        l (db2.messages.filter (fun m => m.from_username == "alice"))) ∧
    (∃ l, messagesTo "alice" db2 = .ok l ∧
      List.Forall₂ (fun (r : MessageToRow) (m : MessageRec) =>
        r.id = m.id ∧ r.body = m.body ∧ r.sent_at = m.sent_at ∧
        r.read_at = m.read_at ∧
        ∃ u ∈ db2.users, u.username = m.from_username ∧ r.from_user = publicUser u)
        l (db2.messages.filter (fun m => m.to_username == "alice"))) :=
  messages_exact "alice" "alice" db2 (by decide) (by decide) (by decide)
    (by decide) (by decide)

end Messagely
